import Mathlib

set_option maxRecDepth 8000

/-
  Verification of the sepa.js checksum engine, character sanitizer and
  document normalization against their natural-language specification.

  Modelling conventions for the JavaScript source:
  * JS strings are modelled by Lean `String` (a sequence of Unicode scalar
    values); `substr` becomes `List.take`/`List.drop` on `String.data`.
  * `String.prototype.toUpperCase` is modelled characterwise (exact on the
    ASCII range, which is all the SEPA charset ever uses).
  * The numbers flowing through `modulo97` are either naturals or NaN
    (when `parseInt` meets a non-digit); this is modelled by `Option Nat`
    with `none` standing for NaN.  NaN is absorbing, as in JS arithmetic.
-/

/-- Characterwise model of `String.prototype.toUpperCase`. -/
def jsToUpperChar (c : Char) : Char :=
  if 97 ≤ c.toNat ∧ c.toNat ≤ 122 then Char.ofNat (c.toNat - 32) else c

/-- Model of `String.prototype.toUpperCase` on whole strings. -/
def jsToUpper (s : String) : String := ⟨ s.data.map jsToUpperChar ⟩

/-- ASCII decimal digit test. -/
def isDigitChar (c : Char) : Bool := decide (48 ≤ c.toNat ∧ c.toNat ≤ 57)

/-- Model of `String.prototype.indexOf` for a single-character needle:
the index of the first occurrence, or -1. -/
def jsIndexOfAux (c : Char) : List Char → Int
  | [] => -1
  | x :: xs =>
    if x = c then 0
    else
      let r := jsIndexOfAux c xs
      if r < 0 then -1 else r + 1

/-- The substitution scheme string of `replaceChars` (lib/utils/utils.js). -/
def sepaScheme : String := "0123456789ABCDEFGHIJKLMNOPQRSTUVWXYZ"

/-- One loop iteration of `replaceChars`: the input character is already
uppercased; a scheme index ≥ 10 is appended in decimal, otherwise the
character itself is appended. -/
def replaceCharStep (c : Char) : List Char :=
  let charIndex : Int := jsIndexOfAux c sepaScheme.data
  if 10 ≤ charIndex then (Nat.repr charIndex.toNat).data else [ c ]

/-- Function `replaceChars` from lib/utils/utils.js: uppercase the input, then map
letters A..Z to 10..35 in decimal and append every other character as is. -/
def replaceChars (value : String) : String :=
  ⟨ ((jsToUpper value).data.map replaceCharStep).flatten ⟩

/-- Model of `parseInt(c, 10)` on a single character: a digit value or NaN (`none`). -/
def jsParseIntDigit (c : Char) : Option Nat :=
  if isDigitChar c then some (c.toNat - 48) else none

/-- One loop iteration of `modulo97`: `result = (result * 10 + parseInt(char, 10)) % 97`,
with NaN absorbing. -/
def mod97Step (r : Option Nat) (c : Char) : Option Nat :=
  match r, jsParseIntDigit c with
  | some x, some d => some ((x * 10 + d) % 97)
  | _, _ => none

/-- Function `modulo97` from lib/utils/utils.js (running remainder over the digit
string; `none` models the NaN produced on a non-digit character). -/
def modulo97 (value : String) : Option Nat :=
  (jsToUpper value).data.foldl mod97Step (some 0)

/-- Decimal rendering of the JS number `98 - mod` (the string `"NaN"` when
`mod` is NaN).  `98 - mod` stays a natural because `modulo97` yields
values below 97. -/
def jsNumOptRepr : Option Nat → String
  | some n => Nat.repr n
  | none => "NaN"

/-- Function `validateIBAN` from lib/utils/utils.js:
`modulo97(replaceChars(iban.substr(4) + iban.substr(0, 4))) === 1`. -/
def validateIBAN (iban : String) : Bool :=
  modulo97 (replaceChars ⟨ iban.data.drop 4 ++ iban.data.take 4 ⟩) == some 1

/-- Function `checksumIBAN` from lib/utils/utils.js:
rearrange to `iban.substr(4) + iban.substr(0, 2) + "00"`, run
replaceChars+modulo97, and splice `("0" + (98 - mod)).substr(-2, 2)` back
between country code and body. -/
def checksumIBAN (iban : String) : String :=
  let ibrev : List Char := iban.data.drop 4 ++ iban.data.take 2 ++ [ '0', '0' ]
  let md := modulo97 (replaceChars ⟨ ibrev ⟩)
  let pad : List Char := '0' :: (jsNumOptRepr (md.map fun m => 98 - m)).data
  ⟨ iban.data.take 2 ++ pad.drop (pad.length - 2) ++ iban.data.drop 4 ⟩

/-- Function `validateCreditorID` from lib/utils/utils.js:
`modulo97(replaceChars(cid.substr(7) + cid.substr(0, 4))) === 1`. -/
def validateCreditorID (cid : String) : Bool :=
  modulo97 (replaceChars ⟨ cid.data.drop 7 ++ cid.data.take 4 ⟩) == some 1

/-- One loop iteration of the legacy `_replaceChars` (lib/sepa.js,
2014 snapshot): uppercase letters via `cc - 55`, lowercase via `cc - 87`,
digits kept, every other character dropped. -/
def legacyReplaceStep (c : Char) : List Char :=
  if 65 ≤ c.toNat ∧ c.toNat ≤ 90 then (Nat.repr (c.toNat - 55)).data
  else if 97 ≤ c.toNat ∧ c.toNat ≤ 122 then (Nat.repr (c.toNat - 87)).data
  else if 48 ≤ c.toNat ∧ c.toNat ≤ 57 then [ c ]
  else []

/-- The legacy `_replaceChars` of the 2014 sepa.js snapshot. -/
def legacyReplaceChars (str : String) : String :=
  ⟨ (str.data.map legacyReplaceStep).flatten ⟩

/- ------------------------------------------------------------------ -/
/- Character classes, given by explicit lists so that per-character     -/
/- facts are decidable.                                                 -/
/- ------------------------------------------------------------------ -/

/-- The ASCII decimal digits. -/
def asciiDigits : List Char := ( "0123456789" ).data

/-- The ASCII letters, both cases. -/
def asciiLetters : List Char :=
  ( "ABCDEFGHIJKLMNOPQRSTUVWXYZabcdefghijklmnopqrstuvwxyz" ).data

/-- The ASCII alphanumeric characters. -/
def asciiAlnum : List Char := asciiDigits ++ asciiLetters

/- ------------------------------------------------------------------ -/
/- Structure of `replaceChars`.                                         -/
/- ------------------------------------------------------------------ -/

/-- The function `replaceChars`, viewed on the underlying character list. -/
def listReplaceChars (l : List Char) : List Char :=
  ((l.map jsToUpperChar).map replaceCharStep).flatten

/-- The per-character substitution, written arithmetically as in the spec
(A maps to 10, ..., Z maps to 35; everything else is kept). -/
def specReplaceStep (c : Char) : List Char :=
  if 65 ≤ c.toNat ∧ c.toNat ≤ 90 then (Nat.repr (c.toNat - 55)).data else [ c ]

/- ------------------------------------------------------------------ -/
/- Numeric value of digit strings, and evaluation of `modulo97`.        -/
/- ------------------------------------------------------------------ -/

/-- The value of an ASCII digit character. -/
def digitVal (c : Char) : Nat := c.toNat - 48

/-- Horner fold of a digit string on top of an accumulator. -/
def natFoldFrom (r : Nat) (l : List Char) : Nat :=
  l.foldl (fun a c => a * 10 + digitVal c) r

/-- The numeric value of a digit string. -/
def natOfDigits (l : List Char) : Nat := natFoldFrom 0 l

/- ------------------------------------------------------------------ -/
/- The check-digit padding `("0" + (98 - mod)).substr(-2, 2)`.          -/
/- ------------------------------------------------------------------ -/

/-- The check-digit pair produced by `checksumIBAN` for remainder `m`. -/
def padOf (m : Nat) : List Char :=
  let p : List Char := '0' :: (Nat.repr (98 - m)).data
  p.drop (p.length - 2)

/-- A natural number rendered in decimal, left-padded with 0 to two digits. -/
def zeroPad2 (n : Nat) : List Char :=
  if n < 10 then '0' :: (Nat.repr n).data else (Nat.repr n).data

/- ------------------------------------------------------------------ -/
/- The character sanitizer (`filterOutInvalidCharacters`) and the        -/
/- transaction-level sanitization of `handleSpecialCharsAndValidate`.    -/
/- ------------------------------------------------------------------ -/

/-- JS `\\w`: ASCII letters, digits and underscore. -/
def isWordChar (c : Char) : Bool :=
  decide ((65 ≤ c.toNat ∧ c.toNat ≤ 90) ∨ (97 ≤ c.toNat ∧ c.toNat ≤ 122) ∨
    (48 ≤ c.toNat ∧ c.toNat ≤ 57) ∨ c = '_')

/-- One character matched by the sanitizer regex
`\\w| |\\.|\\+|\\?|\\/|:|\\(|\\)|,+` of `filterOutInvalidCharacters`. -/
def isSepaTextChar (c : Char) : Bool :=
  isWordChar c || c = ' ' || c = '.' || c = '+' || c = '?' || c = '/' ||
    c = ':' || c = '(' || c = ')' || c = ','

/-- The token list produced by `stringToFilter.match(regex)`: single-character
matches, except that a run of commas is one token (the `,+` alternative).
The fuel argument bounds the recursion by the input length. -/
def sepaMatchTokensGo : Nat → List Char → List (List Char)
  | 0, _ => []
  | _ + 1, [] => []
  | fuel + 1, c :: rest =>
    if c = ',' then
      (c :: rest.takeWhile (fun d => d = ',')) ::
        sepaMatchTokensGo fuel (rest.dropWhile (fun d => d = ','))
    else if isSepaTextChar c then [ c ] :: sepaMatchTokensGo fuel rest
    else sepaMatchTokensGo fuel rest

/-- Function `filterOutInvalidCharacters` from lib/utils/utils.js:
`(s.match(/\\w| |\\.|\\+|\\?|\\/|:|\\(|\\)|,+/g) || []).join('')`. -/
def filterOutInvalidCharacters (stringToFilter : String) : String :=
  ⟨ (sepaMatchTokensGo stringToFilter.data.length stringToFilter.data).flatten ⟩

/-- The string fields of a `SepaTransaction` touched by the sanitizer in
`handleSpecialCharsAndValidate` (lib/index.js, class SepaTransaction), the
name/address fields being those of the active (`pullFrom`) side; `street`,
`city` and `country` are nullable in the source and so are `Option`s here.
The amount is carried along for the aggregation claims. -/
structure SepaTransaction where
  id : String
  end2endId : String
  mandateId : String
  name : String
  street : Option String
  city : Option String
  country : Option String
  remittanceInfo : String
  amount : Rat
deriving DecidableEq

/-- The sanitization phase of `SepaTransaction.handleSpecialCharsAndValidate`:
identifier fields are filtered; the name is truncated to 70 characters and
filtered; street/city/country are only truncated (70/70/2); remittance info
is truncated to 140 and filtered.  Each guarded by the JS truthiness test
`if (x && x.length > 0)`. -/
def jsFilterTruncField (n : Nat) (s : String) : String :=
  if s ≠ ( "" ) then filterOutInvalidCharacters ⟨ s.data.take n ⟩ else s

/-- Model of `if (x && x.length > 0) x = x.substring(0, n)` for a nullable field. -/
def jsTruncOptField (n : Nat) : Option String → Option String
  | some s => if s ≠ ( "" ) then some ⟨ s.data.take n ⟩ else some s
  | none => none

def sanitizeTransaction (t : SepaTransaction) : SepaTransaction :=
  { t with
    id := filterOutInvalidCharacters t.id
    end2endId := filterOutInvalidCharacters t.end2endId
    mandateId := filterOutInvalidCharacters t.mandateId
    name := jsFilterTruncField 70 t.name
    street := jsTruncOptField 70 t.street
    city := jsTruncOptField 70 t.city
    country := jsTruncOptField 2 t.country
    remittanceInfo := jsFilterTruncField 140 t.remittanceInfo }

/-- The character set named by the spec sentence for the sanitizer:
`[A-Za-z0-9]`, space and `. + ? / : ( ) ,` - note: no underscore. -/
def claimAllowedChar (c : Char) : Bool :=
  decide ((65 ≤ c.toNat ∧ c.toNat ≤ 90) ∨ (97 ≤ c.toNat ∧ c.toNat ≤ 122) ∨
    (48 ≤ c.toNat ∧ c.toNat ≤ 57)) || c = ' ' || c = '.' || c = '+' || c = '?' ||
    c = '/' || c = ':' || c = '(' || c = ')' || c = ','

/-- Modelled from the claim's words: remove every character outside the
allowed set, then truncate the result to the field maximum. -/
def claimSanitizeField (maxLen : Nat) (s : String) : String :=
  ⟨ (s.data.filter claimAllowedChar).take maxLen ⟩

/-- Modelled from the claim's words, fieldwise over a transaction
(35 for identifiers, 70 for name/street/city, 2 for country, 140 for
remittance info). -/
def claimSanitizeTransaction (t : SepaTransaction) : SepaTransaction :=
  { t with
    id := claimSanitizeField 35 t.id
    end2endId := claimSanitizeField 35 t.end2endId
    mandateId := claimSanitizeField 35 t.mandateId
    name := claimSanitizeField 70 t.name
    street := t.street.map (claimSanitizeField 70)
    city := t.city.map (claimSanitizeField 70)
    country := t.country.map (claimSanitizeField 2)
    remittanceInfo := claimSanitizeField 140 t.remittanceInfo }

/-- A transaction exhibiting the divergences between the sanitizer claim and
the code: an underscore in an identifier, an over-long identifier, and
unfiltered special characters in the street. -/
def txCounter : SepaTransaction :=
  { id := ( "_" )
    end2endId := ( "_0123456789012345678901234567890123456789" )
    mandateId := ( "" )
    name := ( "" )
    street := some ( "@#" )
    city := none
    country := none
    remittanceInfo := ( "" )
    amount := 0 }

/- ------------------------------------------------------------------ -/
/- `SepaDocument.toString` post-serialization fixups (lib/index.js).     -/
/- ------------------------------------------------------------------ -/

/-- The apostrophe character (written numerically). -/
def aposChar : Char := Char.ofNat 39

/-- A character of the class `[\\w:]`. -/
def isWordColonChar (c : Char) : Bool := isWordChar c || c = ':'

/-- One attempted match of the regex `[\\w:]*='[^']*'` at the head of the
list: on success, the remainder after the match; otherwise `none`.
`[\\w:]*` and `[^']*` are greedy, and since `=` is not in `[\\w:]` and `'`
not in `[^']`, no backtracking can apply. -/
def attrMatchRest (l : List Char) : Option (List Char) :=
  match l.dropWhile isWordColonChar with
  | c :: rest1 =>
    if c = '=' then
      match rest1 with
      | d :: rest2 =>
        if d = aposChar then
          match rest2.dropWhile (fun e => decide (e ≠ aposChar)) with
          | f :: rest3 => if f = aposChar then some rest3 else none
          | [] => none
        else none
      | [] => none
    else none
  | [] => none

/-- The global replace `.replace(/[\\w:]*='[^']*'/g, '')`: scan left to
right, skipping each match (replacement is empty) and keeping the character
on failure.  The fuel argument bounds the recursion by the input length
(every match consumes at least three characters). -/
def attrScanGo : Nat → List Char → List Char
  | 0, l => l
  | _ + 1, [] => []
  | fuel + 1, c :: rest =>
    match attrMatchRest (c :: rest) with
    | some r => attrScanGo fuel r
    | none => c :: attrScanGo fuel rest

/-- The global replace `.replace(/&amp;/g, '+')`. -/
def ampReplace : List Char → List Char
  | '&' :: 'a' :: 'm' :: 'p' :: ';' :: rest => '+' :: ampReplace rest
  | c :: rest => c :: ampReplace rest
  | [] => []

/-- The global replace of apostrophes: `.replace(/'/g, ' ')` - each
apostrophe becomes a space. -/
def aposReplace (l : List Char) : List Char :=
  l.map (fun c => if c = aposChar then ' ' else c)

/-- The global replace `.replace(/@/g, '')`. -/
def atStrip (l : List Char) : List Char :=
  l.filter (fun c => decide (c ≠ '@'))

/-- The document declaration prepended by `SepaDocument.toString` (default
xmlVersion / xmlEncoding). -/
def docDeclaration : String := "<?xml version=\"1.0\" encoding=\"UTF-8\"?>"

/-- The four post-serialization fixups, in source order. -/
def sepaPostProcess (l : List Char) : List Char :=
  atStrip (aposReplace (ampReplace (attrScanGo l.length l)))

/-- Model of `SepaDocument.toString` as a function of the serialized document body
(the XML DOM serializer is an external collaborator): prepend the
declaration, then apply the post-serialization fixups to the whole string. -/
def sepaDocumentToString (serializedBody : String) : String :=
  ⟨ sepaPostProcess (docDeclaration.data ++ serializedBody.data) ⟩

/-- Modelled from the claim's words: same fixups, but apostrophes are
stripped rather than replaced. -/
def claimPostProcess (l : List Char) : List Char :=
  atStrip ((ampReplace (attrScanGo l.length l)).filter (fun c => decide (c ≠ aposChar)))

/-- Modelled from the claim's words: declaration plus fixups with
apostrophes stripped. -/
def claimDocumentToString (serializedBody : String) : String :=
  ⟨ claimPostProcess (docDeclaration.data ++ serializedBody.data) ⟩

/-- A serialized body containing an apostrophe in text content. -/
def bodyApos : String := ⟨ ( "<Nm>D" ).data ++ [ aposChar ] ++ ( "OH</Nm>" ).data ⟩

/-- A nonempty list is "attr-safe" when no match of `[\\w:]*='[^']*'` can
start at its head, whatever follows it: its word-colon run ends inside the
list at a character that either is not `=` or is an `=` followed by a
non-apostrophe. -/
def attrSafe (s : List Char) : Bool :=
  match s.dropWhile isWordColonChar with
  | [] => false
  | c :: rest =>
    if c = '=' then
      match rest with
      | [] => false
      | d :: _ => decide (d ≠ aposChar)
    else true

/- ------------------------------------------------------------------ -/
/- `SepaPaymentInfo.validate` (lib/index.js) with JS-faithful            -/
/- `assert_length` semantics, and `SepaDocument.normalize`.              -/
/- ------------------------------------------------------------------ -/

/-- The JavaScript values that reach `assert_length` in the source:
`null`, numbers, strings, and the numeric array `[0, 8, 11]`. -/
inductive JSVal where
  | jnull : JSVal
  | jnum : Rat → JSVal
  | jstr : String → JSVal
  | jarrNum : List Nat → JSVal
deriving DecidableEq

/-- Model of `ToNumber` on the strings that occur here: the empty string is 0, a
digit string is its value, anything else (member names, `"0,8,11"`) is NaN. -/
def jsStringToNumber (s : String) : Option Rat :=
  if s = ( "" ) then some 0
  else if s.data.all isDigitChar then some ((natOfDigits s.data : Nat) : Rat)
  else none

/-- JS `ToNumber` (`none` is NaN); an array converts via its
comma-joined string form. -/
def jsToNumber : JSVal → Option Rat
  | .jnull => some 0
  | .jnum q => some q
  | .jstr s => jsStringToNumber s
  | .jarrNum l => jsStringToNumber (String.intercalate ( "," ) (l.map Nat.repr))

/-- JS truthiness. -/
def jsTruthy : JSVal → Bool
  | .jnull => false
  | .jnum q => decide (q ≠ 0)
  | .jstr s => decide (s ≠ ( "" ))
  | .jarrNum _ => true

/-- The `.length` property: strings and arrays have one; numbers (and the
short-circuited null) give `undefined`, modelled as `none`. -/
def jsLengthProp : JSVal → Option Rat
  | .jstr s => some ((s.data.length : Nat) : Rat)
  | .jarrNum l => some ((l.length : Nat) : Rat)
  | _ => none

/-- JS `<` on possibly-NaN numbers: any comparison with NaN is false. -/
def jsLtB : Option Rat → Option Rat → Bool
  | some x, some y => decide (x < y)
  | _, _ => false

/-- Model of `assert_length(str, min, max, member)` from lib/index.js: returns
whether the assertion throws.  The condition is
`(min !== null && str && str.length < min) || (max !== null && str && str.length > max)`. -/
def assertLengthThrows (str min max : JSVal) : Bool :=
  (decide (min ≠ JSVal.jnull) && jsTruthy str && jsLtB (jsLengthProp str) (jsToNumber min)) ||
  (decide (max ≠ JSVal.jnull) && jsTruthy str && jsLtB (jsToNumber max) (jsLengthProp str))

/-- Which assertion of `SepaPaymentInfo.validate` fired (the member names
of the corresponding `Error`s). -/
inductive VErr where
  | localInstrumentation | sequenceType | collectionDate | creditorId
  | requestedExecutionDate | nameLength | streetLength | cityLength
  | countryLength | iban | bicLength | countryMismatch | paymentsLength
deriving DecidableEq

/-- A JS `Date` as far as `assert_date` observes it. -/
inductive JSDate where
  | dnull | dinvalid | dvalid
deriving DecidableEq

/-- Model of `assert_date`: throws unless the value is a valid date
(`!dt || isNaN(dt.getTime())`). -/
def assertDateThrows : JSDate → Bool
  | .dvalid => false
  | _ => true

/-- First thrown error wins (assertions run in sequence). -/
def firstSome : Option VErr → Option VErr → Option VErr
  | some e, _ => some e
  | none, b => b

/-- One assertion: throw `e` when the condition holds. -/
def chk (b : Bool) (e : VErr) : Option VErr := if b then some e else none

def jsOfOptStr : Option String → JSVal
  | some s => .jstr s
  | none => .jnull

/-- The fields of `SepaPaymentInfo` read by `validate()` (lib/index.js),
plus the owned transactions and the derived control sum. -/
structure SepaPaymentInfo where
  method : String
  localInstrumentation : String
  sequenceType : String
  collectionDate : JSDate
  requestedExecutionDate : JSDate
  creditorId : String
  creditorName : String
  creditorStreet : Option String
  creditorCity : Option String
  creditorCountry : Option String
  creditorIBAN : String
  creditorBIC : String
  debtorId : String
  debtorName : String
  debtorStreet : Option String
  debtorCity : Option String
  debtorCountry : Option String
  debtorIBAN : String
  debtorBIC : String
  payments : List SepaTransaction
  controlSum : Rat
deriving DecidableEq

/-- Model of `SepaPaymentInfo.validate` from lib/index.js, assertion by assertion in
source order; returns the first thrown error, `none` when validation
passes.  `pullFrom` is `creditor` for direct debit and `debtor` for
transfers. -/
def validatePmtInf (p : SepaPaymentInfo) : Option VErr :=
  let pullCreditor := p.method == ( "DD" )
  let fName := if pullCreditor then p.creditorName else p.debtorName
  let fStreet := if pullCreditor then p.creditorStreet else p.debtorStreet
  let fCity := if pullCreditor then p.creditorCity else p.debtorCity
  let fCountry := if pullCreditor then p.creditorCountry else p.debtorCountry
  let fIBAN := if pullCreditor then p.creditorIBAN else p.debtorIBAN
  let fBIC := if pullCreditor then p.creditorBIC else p.debtorBIC
  firstSome (chk (decide (p.localInstrumentation ∉
      [ ( "CORE" ), ( "COR1" ), ( "B2B" ), ( "SDCL" ), ( "ONCL" ) ])) .localInstrumentation)
  (firstSome (chk (decide (p.sequenceType ∉
      [ ( "FRST" ), ( "RCUR" ), ( "OOFF" ), ( "FNAL" ) ])) .sequenceType)
  (firstSome (if pullCreditor then
      firstSome (chk (assertDateThrows p.collectionDate) .collectionDate)
        (chk (! validateCreditorID p.creditorId) .creditorId)
    else chk (assertDateThrows p.requestedExecutionDate) .requestedExecutionDate)
  (firstSome (chk (assertLengthThrows (JSVal.jstr fName) JSVal.jnull (JSVal.jnum 70)) .nameLength)
  (firstSome (chk (assertLengthThrows (jsOfOptStr fStreet) JSVal.jnull (JSVal.jnum 70)) .streetLength)
  (firstSome (chk (assertLengthThrows (jsOfOptStr fCity) JSVal.jnull (JSVal.jnum 70)) .cityLength)
  (firstSome (chk (assertLengthThrows (jsOfOptStr fCountry) JSVal.jnull (JSVal.jnum 2)) .countryLength)
  (firstSome (chk (! validateIBAN fIBAN) .iban)
  (firstSome (chk (assertLengthThrows (JSVal.jstr fBIC) (JSVal.jarrNum [ 0, 8, 11 ])
      (JSVal.jstr (if pullCreditor then ( "creditorBIC" ) else ( "debtorBIC" )))) .bicLength)
  (firstSome (chk (! (fBIC.data.length == 0 ||
      decide ((fBIC.data.drop 4).take 2 = fIBAN.data.take 2))) .countryMismatch)
  (chk (assertLengthThrows (JSVal.jnum ((p.payments.length : Nat) : Rat))
      (JSVal.jnum 1) JSVal.jnull) .paymentsLength))))))))))

/-- A direct-debit payment-info block with the documented example fields
and an empty transaction list. -/
def emptyPmtInf : SepaPaymentInfo :=
  { method := ( "DD" )
    localInstrumentation := ( "CORE" )
    sequenceType := ( "FRST" )
    collectionDate := .dvalid
    requestedExecutionDate := .dnull
    creditorId := ( "DE98ZZZ09999999999" )
    creditorName := ( "Example LLC" )
    creditorStreet := none
    creditorCity := none
    creditorCountry := none
    creditorIBAN := ( "DE87123456781234567890" )
    creditorBIC := ( "XMPLDEM0XXX" )
    debtorId := ( "" )
    debtorName := ( "" )
    debtorStreet := none
    debtorCity := none
    debtorCountry := none
    debtorIBAN := ( "" )
    debtorBIC := ( "" )
    payments := []
    controlSum := 0 }

/-- Getter `transactionCount` of `SepaPaymentInfo`: the number of owned
transactions. -/
def SepaPaymentInfo.transactionCount (p : SepaPaymentInfo) : Nat := p.payments.length

/-- Method `SepaPaymentInfo.normalize` (lib/index.js): recompute the control sum
as the reduce of the transaction amounts. -/
def SepaPaymentInfo.normalize (p : SepaPaymentInfo) : SepaPaymentInfo :=
  { p with controlSum := p.payments.foldl (fun controlSum t => controlSum + t.amount) 0 }

/-- The `GrpHdr` fields relevant to normalization; the counts are JS
numbers. -/
structure SepaGroupHeader where
  id : String
  transactionCount : Rat
  controlSum : Rat
deriving DecidableEq

/-- A document: one group header and the owned payment-info blocks. -/
structure SepaDocument where
  grpHdr : SepaGroupHeader
  paymentInfo : List SepaPaymentInfo
deriving DecidableEq

/-- Method `SepaDocument.normalize` (lib/index.js): normalize every block in
place, fold up their control sums and transaction counts, and overwrite the
group-header fields with the folded values.  (`toXML`, and hence
`toString`, always call this first.) -/
def SepaDocument.normalize (d : SepaDocument) : SepaDocument :=
  let pis := d.paymentInfo.map SepaPaymentInfo.normalize
  let controlSum := pis.foldl (fun acc p => acc + p.controlSum) 0
  let transactionCount := pis.foldl (fun acc p => acc + ((p.transactionCount : Nat) : Rat)) 0
  { grpHdr := { id := d.grpHdr.id, transactionCount := transactionCount, controlSum := controlSum }
    paymentInfo := pis }

/- ------------------------------------------------------------------ -/
/- Theorems.                                                            -/
/- ------------------------------------------------------------------ -/

theorem charEq_of_toNat_eq {c d : Char} (h : c.toNat = d.toNat) : c = d :=
  Char.ext (UInt32.ext h)

theorem charToNat_ofNat_valid (n : Nat) (h : n < 55296) : (Char.ofNat n).toNat = n := by
  have hv : n.isValidChar := Or.inl h
  simp only [Char.ofNat, hv, dif_pos]
  rfl

/-- Characters in the ASCII uppercase range are scheme members. -/
theorem mem_scheme_of_upper_range {c : Char} (h1 : 65 ≤ c.toNat) (h2 : c.toNat ≤ 90) :
    c ∈ sepaScheme.data := by
  have hb : ∀ n, n < 91 → 65 ≤ n → Char.ofNat n ∈ sepaScheme.data := by decide
  rw [← Char.ofNat_toNat c]
  exact hb c.toNat (by omega) h1

/-- Characters in the ASCII lowercase range are ASCII letters. -/
theorem mem_letters_of_lower_range {c : Char} (h1 : 97 ≤ c.toNat) (h2 : c.toNat ≤ 122) :
    c ∈ asciiLetters := by
  have hb : ∀ n, n < 123 → 97 ≤ n → Char.ofNat n ∈ asciiLetters := by decide
  rw [← Char.ofNat_toNat c]
  exact hb c.toNat (by omega) h1

/-- A character outside a list does not occur in it (model of indexOf = -1). -/
theorem jsIndexOfAux_eq_neg_one {c : Char} :
    ∀ {l : List Char}, c ∉ l → jsIndexOfAux c l = -1 := by
  intro l
  induction l with
  | nil => intro _; rfl
  | cons x xs ih =>
    intro h
    have hx : ¬ x = c := fun he => h (he ▸ List.mem_cons_self x xs)
    have hxs : c ∉ xs := fun hm => h (List.mem_cons_of_mem x hm)
    simp only [jsIndexOfAux, if_neg hx, ih hxs]
    rfl

/-- Uppercasing fixes every character outside the ASCII lowercase range. -/
theorem jsToUpperChar_eq_self {c : Char} (h : ¬ (97 ≤ c.toNat ∧ c.toNat ≤ 122)) :
    jsToUpperChar c = c := by
  simp only [jsToUpperChar, if_neg h]

/-- Uppercasing an ASCII lowercase character lands in the uppercase range. -/
theorem jsToUpperChar_toNat_of_lower {c : Char} (h : 97 ≤ c.toNat ∧ c.toNat ≤ 122) :
    (jsToUpperChar c).toNat = c.toNat - 32 := by
  simp only [jsToUpperChar, if_pos h]
  exact charToNat_ofNat_valid _ (by omega)

/-- Uppercasing is idempotent (characterwise). -/
theorem jsToUpperChar_idem (c : Char) : jsToUpperChar (jsToUpperChar c) = jsToUpperChar c := by
  by_cases h : 97 ≤ c.toNat ∧ c.toNat ≤ 122
  · have ht : (jsToUpperChar c).toNat = c.toNat - 32 := jsToUpperChar_toNat_of_lower h
    exact jsToUpperChar_eq_self (by omega)
  · rw [jsToUpperChar_eq_self h]
    exact jsToUpperChar_eq_self h

theorem replaceChars_mk (l : List Char) : replaceChars ⟨ l ⟩ = ⟨ listReplaceChars l ⟩ := rfl

theorem listReplaceChars_append (a b : List Char) :
    listReplaceChars (a ++ b) = listReplaceChars a ++ listReplaceChars b := by
  simp [listReplaceChars, List.map_append, List.flatten_append]

theorem listReplaceChars_cons (c : Char) (t : List Char) :
    listReplaceChars (c :: t) = replaceCharStep (jsToUpperChar c) ++ listReplaceChars t := rfl

/-- The indexOf-based loop body agrees with the arithmetic description. -/
theorem replaceCharStep_eq_spec (c : Char) : replaceCharStep c = specReplaceStep c := by
  by_cases hm : c ∈ sepaScheme.data
  · fin_cases hm <;> decide
  · have hidx : jsIndexOfAux c sepaScheme.data = -1 := jsIndexOfAux_eq_neg_one hm
    have hrange : ¬ (65 ≤ c.toNat ∧ c.toNat ≤ 90) := by
      intro hr
      exact hm (mem_scheme_of_upper_range hr.1 hr.2)
    simp [replaceCharStep, specReplaceStep, hidx, hrange]

/-- On alphanumeric input every character `replaceChars` emits is a digit. -/
theorem listReplaceChars_digits :
    ∀ {l : List Char}, (∀ c ∈ l, c ∈ asciiAlnum) →
      ∀ d ∈ listReplaceChars l, d ∈ asciiDigits := by
  have hstep : ∀ c ∈ asciiAlnum, ∀ d ∈ replaceCharStep (jsToUpperChar c), d ∈ asciiDigits := by
    decide
  intro l
  induction l with
  | nil => intro _ d hd; simp [listReplaceChars] at hd
  | cons c t ih =>
    intro h d hd
    rw [listReplaceChars_cons] at hd
    rcases List.mem_append.mp hd with h1 | h2
    · exact hstep c (h c (List.mem_cons_self c t)) d h1
    · exact ih (fun x hx => h x (List.mem_cons_of_mem c hx)) d h2

/-- The function `replaceChars` keeps digit characters unchanged. -/
theorem listReplaceChars_of_digits :
    ∀ {l : List Char}, (∀ c ∈ l, c ∈ asciiDigits) → listReplaceChars l = l := by
  have hstep : ∀ c ∈ asciiDigits, jsToUpperChar c = c ∧ replaceCharStep c = [ c ] := by
    decide
  intro l
  induction l with
  | nil => intro _; rfl
  | cons c t ih =>
    intro h
    have hc := hstep c (h c (List.mem_cons_self c t))
    rw [listReplaceChars_cons, hc.1, hc.2, List.singleton_append,
      ih (fun x hx => h x (List.mem_cons_of_mem c hx))]

theorem natFoldFrom_append (r : Nat) (a b : List Char) :
    natFoldFrom r (a ++ b) = natFoldFrom (natFoldFrom r a) b :=
  List.foldl_append _ _ _ _

theorem natFoldFrom_eq (l : List Char) :
    ∀ r : Nat, natFoldFrom r l = r * 10 ^ l.length + natOfDigits l := by
  induction l with
  | nil => intro r; simp [natFoldFrom, natOfDigits]
  | cons c t ih =>
    intro r
    have h1 : natFoldFrom r (c :: t) = natFoldFrom (r * 10 + digitVal c) t := rfl
    have h2 : natOfDigits (c :: t) = natFoldFrom (digitVal c) t := by
      simp [natOfDigits, natFoldFrom]
    rw [h1, ih, h2, ih (digitVal c)]
    simp [List.length_cons, pow_succ]
    ring

theorem foldl_mod97_digits :
    ∀ (l : List Char), (∀ c ∈ l, isDigitChar c = true) →
      ∀ r : Nat, l.foldl mod97Step (some (r % 97)) = some (natFoldFrom r l % 97) := by
  intro l
  induction l with
  | nil => intro _ r; rfl
  | cons c t ih =>
    intro h r
    have hc : isDigitChar c = true := h c (List.mem_cons_self c t)
    have hstep : mod97Step (some (r % 97)) c = some ((r * 10 + digitVal c) % 97) := by
      simp only [mod97Step, jsParseIntDigit, if_pos hc, digitVal]
      congr 1
      omega
    rw [List.foldl_cons, hstep]
    exact ih (fun x hx => h x (List.mem_cons_of_mem c hx)) (r * 10 + digitVal c)

theorem isDigitChar_of_mem : ∀ c ∈ asciiDigits, isDigitChar c = true := by decide

/-- Evaluating `modulo97` on an all-digit string: is the value of that string mod 97. -/
theorem modulo97_of_digits {l : List Char} (h : ∀ c ∈ l, c ∈ asciiDigits) :
    modulo97 ⟨ l ⟩ = some (natOfDigits l % 97) := by
  have hid : l.map jsToUpperChar = l := by
    have hfix : ∀ c ∈ asciiDigits, jsToUpperChar c = c ∧ replaceCharStep c = [ c ] := by
      decide
    induction l with
    | nil => rfl
    | cons c t ih =>
      rw [List.map_cons, (hfix c (h c (List.mem_cons_self c t))).1,
        ih (fun x hx => h x (List.mem_cons_of_mem c hx))]
  have h0 : (0 : Nat) = 0 % 97 := rfl
  unfold modulo97 jsToUpper
  simp only []
  show (l.map jsToUpperChar).foldl mod97Step (some 0) = some (natOfDigits l % 97)
  rw [hid, h0]
  exact foldl_mod97_digits l (fun c hc => isDigitChar_of_mem c (h c hc)) 0

theorem foldl_mod97_none (l : List Char) : l.foldl mod97Step none = none := by
  induction l with
  | nil => rfl
  | cons c t ih =>
    rw [List.foldl_cons]
    have : mod97Step none c = none := rfl
    rw [this, ih]

/-- The function `modulo97` never yields a number outside [0, 96]. -/
theorem modulo97_lt {s : String} {r : Nat} (h : modulo97 s = some r) : r < 97 := by
  have haux : ∀ (l : List Char) (acc : Option Nat),
      (∀ x, acc = some x → x < 97) → ∀ q, l.foldl mod97Step acc = some q → q < 97 := by
    intro l
    induction l with
    | nil => intro acc hacc q hq; exact hacc q hq
    | cons c t ih =>
      intro acc hacc q hq
      rw [List.foldl_cons] at hq
      cases acc with
      | none =>
        rw [show mod97Step none c = none from rfl, foldl_mod97_none] at hq
        cases hq
      | some x =>
        cases hd : jsParseIntDigit c with
        | none =>
          rw [show mod97Step (some x) c = none by simp [mod97Step, hd], foldl_mod97_none] at hq
          cases hq
        | some d =>
          refine ih (mod97Step (some x) c) ?_ q hq
          intro y hy
          simp only [mod97Step, hd] at hy
          cases hy
          exact Nat.mod_lt _ (by omega)
  exact haux _ (some 0) (fun x hx => by cases hx; omega) r h

theorem padOf_facts : ∀ m : Nat, m < 97 →
    padOf m = zeroPad2 (98 - m) ∧ (padOf m).length = 2 ∧
      (∀ c ∈ padOf m, c ∈ asciiDigits) ∧ natOfDigits (padOf m) = 98 - m := by
  decide

theorem letters_subset_alnum : ∀ c ∈ asciiLetters, c ∈ asciiAlnum := by decide

theorem digits_subset_alnum : ∀ c ∈ asciiDigits, c ∈ asciiAlnum := by decide

/-- Evaluation of `checksumIBAN` on alphanumeric input: the mod-97 pipeline
yields a number `m` below 97 and the result splices in `padOf m`. -/
theorem checksumIBAN_eval {iban : String} (h : ∀ c ∈ iban.data, c ∈ asciiAlnum) :
    ∃ m : Nat, m < 97 ∧
      modulo97 (replaceChars ⟨ iban.data.drop 4 ++ iban.data.take 2 ++ [ '0', '0' ] ⟩) = some m ∧
      checksumIBAN iban = ⟨ iban.data.take 2 ++ padOf m ++ iban.data.drop 4 ⟩ := by
  have halnum : ∀ c ∈ iban.data.drop 4 ++ iban.data.take 2 ++ [ '0', '0' ], c ∈ asciiAlnum := by
    intro c hc
    rcases List.mem_append.mp hc with h1 | h2
    · rcases List.mem_append.mp h1 with h3 | h4
      · exact h c (List.mem_of_mem_drop h3)
      · exact h c (List.mem_of_mem_take h4)
    · have : c ∈ asciiDigits := by
        fin_cases h2 <;> decide
      exact digits_subset_alnum c this
  have hdig : ∀ d ∈ listReplaceChars (iban.data.drop 4 ++ iban.data.take 2 ++ [ '0', '0' ]),
      d ∈ asciiDigits := listReplaceChars_digits halnum
  have hmod : modulo97 (replaceChars ⟨ iban.data.drop 4 ++ iban.data.take 2 ++ [ '0', '0' ] ⟩) =
      some (natOfDigits (listReplaceChars
        (iban.data.drop 4 ++ iban.data.take 2 ++ [ '0', '0' ])) % 97) := by
    rw [replaceChars_mk]
    exact modulo97_of_digits hdig
  refine ⟨ _, Nat.mod_lt _ (by omega), hmod, ?_ ⟩
  show (let ibrev : List Char := iban.data.drop 4 ++ iban.data.take 2 ++ [ '0', '0' ]
    let md := modulo97 (replaceChars ⟨ ibrev ⟩)
    let pad : List Char := '0' :: (jsNumOptRepr (md.map fun m => 98 - m)).data
    (⟨ iban.data.take 2 ++ pad.drop (pad.length - 2) ++ iban.data.drop 4 ⟩ : String)) = _
  simp only [hmod, Option.map_some, jsNumOptRepr]
  rfl

theorem natOfDigits_append (a b : List Char) :
    natOfDigits (a ++ b) = natOfDigits a * 10 ^ b.length + natOfDigits b := by
  rw [natOfDigits, natFoldFrom_append]
  exact natFoldFrom_eq b (natOfDigits a)

/-- C1. For every structurally-valid IBAN (two letters, two check-digit
characters, alphanumeric body), `validateIBAN (checksumIBAN x)` holds no
matter what the original check digits were. -/
theorem claim1_validate_checksum_roundtrip (l1 l2 c1 c2 : Char) (body : List Char)
    (h1 : l1 ∈ asciiLetters) (h2 : l2 ∈ asciiLetters)
    (h3 : c1 ∈ asciiDigits) (h4 : c2 ∈ asciiDigits)
    (hb : ∀ c ∈ body, c ∈ asciiAlnum) :
    validateIBAN (checksumIBAN ⟨ l1 :: l2 :: c1 :: c2 :: body ⟩) = true := by
  have halt : ∀ c ∈ (⟨ l1 :: l2 :: c1 :: c2 :: body ⟩ : String).data, c ∈ asciiAlnum := by
    intro c hc
    simp only [List.mem_cons] at hc
    rcases hc with rfl | rfl | rfl | rfl | hm
    · exact letters_subset_alnum _ h1
    · exact letters_subset_alnum _ h2
    · exact digits_subset_alnum _ h3
    · exact digits_subset_alnum _ h4
    · exact hb c hm
  obtain ⟨ m, hmlt, hmod, hres ⟩ := checksumIBAN_eval halt
  have e1 : (⟨ l1 :: l2 :: c1 :: c2 :: body ⟩ : String).data.drop 4 = body := rfl
  have e2 : (⟨ l1 :: l2 :: c1 :: c2 :: body ⟩ : String).data.take 2 = [ l1, l2 ] := rfl
  rw [e1, e2] at hmod hres
  obtain ⟨ hpz, hplen, hpdig, hpval ⟩ := padOf_facts m hmlt
  obtain ⟨ d1, d2, hd ⟩ := List.length_eq_two.mp hplen
  rw [hd] at hres hpdig hpval
  -- value of the substituted body-plus-country digits
  have hdigBC : ∀ c ∈ body ++ [ l1, l2 ], c ∈ asciiAlnum := by
    intro c hc
    rcases List.mem_append.mp hc with hm | hm
    · exact hb c hm
    · have : c ∈ asciiLetters := by
        rcases List.mem_cons.mp hm with rfl | hm2
        · exact h1
        · rcases List.mem_cons.mp hm2 with rfl | hm3
          · exact h2
          · cases hm3
      exact letters_subset_alnum c this
  have hdigR : ∀ d ∈ listReplaceChars (body ++ [ l1, l2 ]), d ∈ asciiDigits :=
    listReplaceChars_digits hdigBC
  have hz : listReplaceChars [ '0', '0' ] = [ '0', '0' ] := by decide
  have hmod2 : modulo97 (replaceChars ⟨ body ++ [ l1, l2 ] ++ [ '0', '0' ] ⟩) =
      some (natOfDigits (listReplaceChars (body ++ [ l1, l2 ])) * 100 % 97) := by
    rw [replaceChars_mk, listReplaceChars_append, hz]
    rw [modulo97_of_digits (by
      intro c hc
      rcases List.mem_append.mp hc with hm | hm
      · exact hdigR c hm
      · fin_cases hm <;> decide)]
    rw [natOfDigits_append]
    norm_num [show natOfDigits [ '0', '0' ] = 0 from by decide]
  have hm_eq : m = natOfDigits (listReplaceChars (body ++ [ l1, l2 ])) * 100 % 97 :=
    Option.some.inj (hmod.symm.trans hmod2)
  -- the corrected IBAN and its validation
  have hres2 : checksumIBAN ⟨ l1 :: l2 :: c1 :: c2 :: body ⟩ =
      ⟨ l1 :: l2 :: d1 :: d2 :: body ⟩ := by
    rw [hres]
    rfl
  rw [hres2]
  have e3 : (⟨ l1 :: l2 :: d1 :: d2 :: body ⟩ : String).data.drop 4 = body := rfl
  have e4 : (⟨ l1 :: l2 :: d1 :: d2 :: body ⟩ : String).data.take 4 = [ l1, l2, d1, d2 ] := rfl
  show (modulo97 (replaceChars ⟨ (⟨ l1 :: l2 :: d1 :: d2 :: body ⟩ : String).data.drop 4 ++
    (⟨ l1 :: l2 :: d1 :: d2 :: body ⟩ : String).data.take 4 ⟩) == some 1) = true
  rw [e3, e4]
  have hassoc : body ++ [ l1, l2, d1, d2 ] = body ++ [ l1, l2 ] ++ [ d1, d2 ] := by
    rw [List.append_assoc]
    rfl
  rw [hassoc]
  have hdd : listReplaceChars [ d1, d2 ] = [ d1, d2 ] := by
    refine listReplaceChars_of_digits ?_
    intro c hc
    exact hpdig c hc
  have hmod3 : modulo97 (replaceChars ⟨ body ++ [ l1, l2 ] ++ [ d1, d2 ] ⟩) =
      some ((natOfDigits (listReplaceChars (body ++ [ l1, l2 ])) * 100 + (98 - m)) % 97) := by
    rw [replaceChars_mk, listReplaceChars_append, hdd]
    rw [modulo97_of_digits (by
      intro c hc
      rcases List.mem_append.mp hc with hm | hm
      · exact hdigR c hm
      · exact hpdig c hm)]
    rw [natOfDigits_append, hpval]
    norm_num
  rw [hmod3]
  have hone : (natOfDigits (listReplaceChars (body ++ [ l1, l2 ])) * 100 + (98 - m)) % 97 = 1 := by
    omega
  rw [hone]
  rfl

/-- C1 witness: repairing the documented example IBAN `DE00123456781234567890`
yields an IBAN accepted by `validateIBAN`. -/
theorem claim1_witness :
    validateIBAN (checksumIBAN ⟨ 'D' :: 'E' :: '0' :: '0' ::
      ( "123456781234567890" ).data ⟩) = true :=
  claim1_validate_checksum_roundtrip 'D' 'E' '0' '0' ( "123456781234567890" ).data
    (by decide) (by decide) (by decide) (by decide) (by decide)

/-- C3. For alphanumeric input of length at least 4, `checksumIBAN` returns
country code ++ (98 - mod97 of the rearranged string, zero-padded to exactly
two digits) ++ body. -/
theorem claim3_checksum_structure (iban : String) (_hlen : 4 ≤ iban.data.length)
    (ha : ∀ c ∈ iban.data, c ∈ asciiAlnum) :
    ∃ m : Nat,
      modulo97 (replaceChars ⟨ iban.data.drop 4 ++ iban.data.take 2 ++ [ '0', '0' ] ⟩) = some m ∧
      (zeroPad2 (98 - m)).length = 2 ∧
      checksumIBAN iban = ⟨ iban.data.take 2 ++ zeroPad2 (98 - m) ++ iban.data.drop 4 ⟩ := by
  obtain ⟨ m, hmlt, hmod, hres ⟩ := checksumIBAN_eval ha
  obtain ⟨ hpz, hplen, _, _ ⟩ := padOf_facts m hmlt
  refine ⟨ m, hmod, ?_, ?_ ⟩
  · rw [← hpz]
    exact hplen
  · rw [hres, hpz]

/-- C3 witness: evaluation on the documented example `DE00123456781234567890`. -/
theorem claim3_witness :
    ∃ m : Nat,
      modulo97 (replaceChars ⟨ ( "DE00123456781234567890" ).data.drop 4 ++
        ( "DE00123456781234567890" ).data.take 2 ++ [ '0', '0' ] ⟩) = some m ∧
      (zeroPad2 (98 - m)).length = 2 ∧
      checksumIBAN ( "DE00123456781234567890" ) =
        ⟨ ( "DE00123456781234567890" ).data.take 2 ++ zeroPad2 (98 - m) ++
          ( "DE00123456781234567890" ).data.drop 4 ⟩ :=
  claim3_checksum_structure ( "DE00123456781234567890" ) (by decide) (by decide)

/-- C4. `modulo97` is the running remainder `r = (r * 10 + d) % 97`; on a
digit string it returns the string value mod 97, any numeric result is
below 97, and the two regression fixtures hold. -/
theorem claim4_modulo97_spec :
    (∀ s : String, (∀ c ∈ s.data, c ∈ asciiDigits) →
      modulo97 s = some (natOfDigits s.data % 97)) ∧
    (∀ (s : String) (r : Nat), modulo97 s = some r → r < 97) ∧
    modulo97 ( "2" ) = some 2 ∧ modulo97 ( "88512108001245126199" ) = some 49 := by
  refine ⟨ ?_, ?_, by decide, by decide ⟩
  · intro s h
    exact modulo97_of_digits h
  · intro s r h
    exact modulo97_lt h

/-- C4 witness: the digit-string law applied at a concrete input. -/
theorem claim4_witness :
    modulo97 ( "4815163342" ) = some (natOfDigits ( "4815163342" ).data % 97) :=
  claim4_modulo97_spec.1 ( "4815163342" ) (by decide)

theorem listReplaceChars_map_upper (l : List Char) :
    listReplaceChars (l.map jsToUpperChar) = listReplaceChars l := by
  unfold listReplaceChars
  have h2 : (l.map jsToUpperChar).map jsToUpperChar = l.map jsToUpperChar := by
    rw [List.map_map]
    have : jsToUpperChar ∘ jsToUpperChar = jsToUpperChar := funext jsToUpperChar_idem
    rw [this]
  rw [h2]

/-- C9. `validateIBAN` is case-insensitive: validating a string and
validating its uppercased form agree. -/
theorem claim9_validate_case_insensitive (s : String) :
    validateIBAN (jsToUpper s) = validateIBAN s := by
  unfold validateIBAN
  have hd : (jsToUpper s).data = s.data.map jsToUpperChar := rfl
  have harg : (jsToUpper s).data.drop 4 ++ (jsToUpper s).data.take 4 =
      (s.data.drop 4 ++ s.data.take 4).map jsToUpperChar := by
    rw [hd, List.map_append, List.map_drop, List.map_take]
  rw [harg, replaceChars_mk, replaceChars_mk, listReplaceChars_map_upper]

/-- C10. `validateIBAN` is total: it yields a boolean on every string, is
false whenever the substituted remainder differs from 1, and in particular
rejects the empty string. -/
theorem claim10_validate_total :
    (∀ s : String,
      modulo97 (replaceChars ⟨ s.data.drop 4 ++ s.data.take 4 ⟩) ≠ some 1 →
        validateIBAN s = false) ∧
    validateIBAN ( "" ) = false ∧
    (∀ s : String, validateIBAN s = true ∨ validateIBAN s = false) := by
  refine ⟨ ?_, by decide, ?_ ⟩
  · intro s h
    exact beq_eq_false_iff_ne.mpr h
  · intro s
    cases h : validateIBAN s
    · exact Or.inr rfl
    · exact Or.inl rfl

/-- C10 witness: an IBAN with placeholder check digits is rejected. -/
theorem claim10_witness : validateIBAN ( "DE00123456781234567890" ) = false :=
  claim10_validate_total.1 ( "DE00123456781234567890" ) (by decide)

/-- C2 counterexample: on input containing the non-alphanumeric `@`,
`replaceChars` neither fails nor drops the character: it passes it through
into the output; the legacy `_replaceChars` silently drops it instead.
Neither implementation raises an InputError. -/
theorem claim2_counterexample :
    replaceChars ( "DE@1" ) = ( "1314@1" ) ∧ '@' ∈ (replaceChars ( "DE@1" )).data ∧
    legacyReplaceChars ( "DE@1" ) = ( "13141" ) :=
  ⟨ by decide, by decide, by decide ⟩

/-- C2 amended: `replaceChars` is total on strings: it uppercases the input
characterwise and then maps each uppercase letter (code 65..90) to the
decimal digits of `code - 55` (A maps to 10, ..., Z maps to 35), passing
every other character - digits and non-alphanumerics alike - through
unchanged; on alphanumeric input the result is all digits. -/
theorem claim2_amended_replaceChars_total :
    (∀ s : String, replaceChars s =
      ⟨ ((s.data.map jsToUpperChar).map specReplaceStep).flatten ⟩) ∧
    (∀ s : String, (∀ c ∈ s.data, c ∈ asciiAlnum) →
      ∀ c ∈ (replaceChars s).data, isDigitChar c = true) := by
  constructor
  · intro s
    show (⟨ ((s.data.map jsToUpperChar).map replaceCharStep).flatten ⟩ : String) = _
    rw [funext replaceCharStep_eq_spec]
  · intro s h c hc
    have hx : (replaceChars s).data = listReplaceChars s.data := rfl
    rw [hx] at hc
    exact isDigitChar_of_mem c (listReplaceChars_digits h c hc)

/-- C2 amended witness: a digit of the substituted alphanumeric string. -/
theorem claim2_witness : isDigitChar '1' = true :=
  claim2_amended_replaceChars_total.2 ( "DE44" ) (by decide) '1' (by decide)

/-- Joining the matched tokens is the same as filtering the allowed
characters: the `,+` grouping is invisible after `join('')`. -/
theorem sepaMatchTokens_flatten :
    ∀ (fuel : Nat) (l : List Char), l.length ≤ fuel →
      (sepaMatchTokensGo fuel l).flatten = l.filter isSepaTextChar := by
  intro fuel
  induction fuel with
  | zero =>
    intro l hl
    have : l = [] := List.length_eq_zero.mp (Nat.le_zero.mp hl)
    subst this
    rfl
  | succ n ih =>
    intro l hl
    cases l with
    | nil => rfl
    | cons c rest =>
      by_cases hc : c = ','
      · subst hc
        have hlen : (rest.dropWhile (fun d => d = ',')).length ≤ n := by
          have h1 : (rest.dropWhile (fun d => d = ',')).length ≤ rest.length :=
            (List.dropWhile_sublist _).length_le
          have h2 : rest.length + 1 ≤ n + 1 := hl
          omega
        have htw : (rest.takeWhile (fun d => d = ',')).filter isSepaTextChar =
            rest.takeWhile (fun d => d = ',') := by
          rw [List.filter_eq_self]
          intro a ha
          have ha2 : a = ',' := by simpa using List.mem_takeWhile_imp ha
          subst ha2
          decide
        have hstep : sepaMatchTokensGo (n + 1) (',' :: rest) =
            (',' :: rest.takeWhile (fun d => d = ',')) ::
              sepaMatchTokensGo n (rest.dropWhile (fun d => d = ',')) := by
          simp [sepaMatchTokensGo]
        rw [hstep, List.flatten_cons, ih _ hlen]
        have hsplit : rest.takeWhile (fun d => d = ',') ++
            rest.dropWhile (fun d => d = ',') = rest :=
          List.takeWhile_append_dropWhile _ _
        conv_rhs => rw [← hsplit]
        rw [List.filter_cons_of_pos (by decide), List.filter_append, htw]
        simp
      · have hlen : rest.length ≤ n := by
          have : rest.length + 1 ≤ n + 1 := hl
          omega
        by_cases hs : isSepaTextChar c = true
        · have hstep : sepaMatchTokensGo (n + 1) (c :: rest) =
              [ c ] :: sepaMatchTokensGo n rest := by
            simp [sepaMatchTokensGo, hc, hs]
          rw [hstep, List.flatten_cons, ih _ hlen, List.filter_cons_of_pos hs]
          rfl
        · have hstep : sepaMatchTokensGo (n + 1) (c :: rest) =
              sepaMatchTokensGo n rest := by
            simp [sepaMatchTokensGo, hc, hs]
          rw [hstep, ih _ hlen,
            List.filter_cons_of_neg (by simp [hs])]

/-- The function `filterOutInvalidCharacters` keeps exactly the regex-allowed characters. -/
theorem filterOutInvalidCharacters_eq_filter (s : String) :
    filterOutInvalidCharacters s = ⟨ s.data.filter isSepaTextChar ⟩ := by
  unfold filterOutInvalidCharacters
  rw [sepaMatchTokens_flatten s.data.length s.data (Nat.le_refl _)]

theorem jsFilterTruncField_eq (n : Nat) (s : String) :
    jsFilterTruncField n s = ⟨ (s.data.take n).filter isSepaTextChar ⟩ := by
  unfold jsFilterTruncField
  by_cases h : s = ( "" )
  · subst h
    rw [if_neg (by simp)]
    refine String.ext ?_
    have h0 : ( "" : String).data = [] := rfl
    rw [h0]
    simp
  · rw [if_pos h, filterOutInvalidCharacters_eq_filter]

theorem jsTruncOptField_eq (n : Nat) (o : Option String) :
    jsTruncOptField n o = o.map (fun s => ⟨ s.data.take n ⟩) := by
  cases o with
  | none => rfl
  | some s =>
    by_cases h : s = ( "" )
    · subst h
      simp [jsTruncOptField]
    · simp [jsTruncOptField, h]

/-- C6 counterexample: the code keeps underscores (claim set excludes them),
does not truncate identifier fields to 35, and does not character-filter the
street field; `claimSanitizeTransaction` is the claim, Modelled from the
spec sentence. -/
theorem claim6_counterexample :
    sanitizeTransaction txCounter ≠ claimSanitizeTransaction txCounter ∧
    (sanitizeTransaction txCounter).id = ( "_" ) ∧
    (claimSanitizeTransaction txCounter).id = ( "" ) ∧
    (sanitizeTransaction txCounter).end2endId.data.length = 41 ∧
    (claimSanitizeTransaction txCounter).end2endId.data.length = 35 ∧
    (sanitizeTransaction txCounter).street = some ( "@#" ) ∧
    (claimSanitizeTransaction txCounter).street = some ( "" ) := by
  decide

/-- C6 amended: the sanitizer keeps exactly `[A-Za-z0-9_]`, space and
`. + ? / : ( ) ,` (underscore included); identifier fields are filtered but
not truncated; the name is truncated to 70 and then filtered; street and
city are truncated to 70 and country to 2 without filtering; remittance
info is truncated to 140 and then filtered. -/
theorem claim6_amended_sanitizer (t : SepaTransaction) :
    sanitizeTransaction t = { t with
      id := ⟨ t.id.data.filter isSepaTextChar ⟩
      end2endId := ⟨ t.end2endId.data.filter isSepaTextChar ⟩
      mandateId := ⟨ t.mandateId.data.filter isSepaTextChar ⟩
      name := ⟨ (t.name.data.take 70).filter isSepaTextChar ⟩
      street := t.street.map (fun s => ⟨ s.data.take 70 ⟩)
      city := t.city.map (fun s => ⟨ s.data.take 70 ⟩)
      country := t.country.map (fun s => ⟨ s.data.take 2 ⟩)
      remittanceInfo := ⟨ (t.remittanceInfo.data.take 140).filter isSepaTextChar ⟩ } := by
  unfold sanitizeTransaction
  rw [filterOutInvalidCharacters_eq_filter, filterOutInvalidCharacters_eq_filter,
    filterOutInvalidCharacters_eq_filter, jsFilterTruncField_eq, jsFilterTruncField_eq,
    jsTruncOptField_eq, jsTruncOptField_eq, jsTruncOptField_eq]

theorem attrMatchRest_none_of_safe {pre : List Char} (h : attrSafe pre = true)
    (body : List Char) : attrMatchRest (pre ++ body) = none := by
  unfold attrSafe at h
  cases hdw : pre.dropWhile isWordColonChar with
  | nil => rw [hdw] at h; cases h
  | cons c rest =>
    rw [hdw] at h
    have hdw2 : (pre ++ body).dropWhile isWordColonChar = c :: (rest ++ body) := by
      rw [List.dropWhile_append, hdw]
      rfl
    unfold attrMatchRest
    rw [hdw2]
    show (if c = '=' then
        (match rest ++ body with
          | d :: rest2 =>
            if d = aposChar then
              match rest2.dropWhile (fun e => decide (e ≠ aposChar)) with
              | f :: rest3 => if f = aposChar then some rest3 else none
              | [] => none
            else none
          | [] => none) else none) = none
    by_cases hc : c = '='
    · subst hc
      rw [if_pos rfl]
      cases rest with
      | nil => exact absurd h (by decide)
      | cons d rest' =>
        have h3 : decide (¬ d = aposChar) = true := h
        have hd : ¬ d = aposChar := by simpa using h3
        show (if d = aposChar then
            (match (rest' ++ body).dropWhile (fun e => decide (e ≠ aposChar)) with
              | f :: rest3 => if f = aposChar then some rest3 else none
              | [] => none) else none) = none
        rw [if_neg hd]
    · rw [if_neg hc]

theorem attrScanGo_append (pre : List Char)
    (hsafe : ∀ s ∈ pre.tails, s ≠ [] → attrSafe s = true) :
    ∀ body : List Char, attrScanGo (pre.length + body.length) (pre ++ body) =
      pre ++ attrScanGo body.length body := by
  induction pre with
  | nil => intro body; simp
  | cons c pre' ih =>
    intro body
    have hsafe0 : attrSafe (c :: pre') = true := by
      refine hsafe _ ?_ (by simp)
      exact (List.mem_tails _ _).mpr (List.suffix_refl _)
    have hnone : attrMatchRest ((c :: pre') ++ body) = none :=
      attrMatchRest_none_of_safe hsafe0 body
    have hlen : (c :: pre').length + body.length = (pre'.length + body.length) + 1 := by
      simp only [List.length_cons]
      omega
    rw [hlen]
    show attrScanGo ((pre'.length + body.length) + 1) (c :: (pre' ++ body)) = _
    simp only [attrScanGo]
    rw [show ((c :: pre') ++ body : List Char) = c :: (pre' ++ body) from rfl] at hnone
    rw [hnone]
    have ih2 := ih (fun s hs hne => hsafe s (by rw [List.tails_cons]; exact List.mem_cons_of_mem _ hs) hne) body
    rw [ih2]
    rfl

theorem ampReplace_cons_ne {c : Char} (rest : List Char) (h : ¬ c = '&') :
    ampReplace (c :: rest) = c :: ampReplace rest := by
  conv_lhs => rw [ampReplace.eq_def]
  split
  · rename_i heq
    rw [List.cons.injEq] at heq
    exact absurd heq.1 h
  · rename_i c2 rest2 heq
    rw [List.cons.injEq] at heq
    rw [heq.1, heq.2]
  · rename_i heq
    cases heq

theorem ampReplace_append {pre : List Char} (h : ∀ c ∈ pre, ¬ c = '&') (body : List Char) :
    ampReplace (pre ++ body) = pre ++ ampReplace body := by
  induction pre with
  | nil => rfl
  | cons c pre' ih =>
    show ampReplace (c :: (pre' ++ body)) = _
    rw [ampReplace_cons_ne _ (h c (List.mem_cons_self c pre')),
      ih (fun x hx => h x (List.mem_cons_of_mem c hx))]
    rfl

theorem aposChar_not_mem_aposReplace (l : List Char) : aposChar ∉ aposReplace l := by
  intro hmem
  rcases List.mem_map.mp hmem with ⟨ d, _, hd ⟩
  by_cases hda : d = aposChar
  · rw [if_pos hda] at hd
    cases hd
  · rw [if_neg hda] at hd
    exact hda hd

theorem at_not_mem_atStrip (l : List Char) : '@' ∉ atStrip l := by
  intro hmem
  have := (List.mem_filter.mp hmem).2
  simp at this

theorem mem_of_mem_atStrip {a : Char} {l : List Char} (h : a ∈ atStrip l) : a ∈ l :=
  (List.mem_filter.mp h).1

theorem docDeclaration_tails_safe :
    ∀ s ∈ docDeclaration.data.tails, s ≠ [] → attrSafe s = true := by decide

theorem docDeclaration_no_amp : ∀ c ∈ docDeclaration.data, ¬ c = '&' := by decide

theorem aposReplace_decl : aposReplace docDeclaration.data = docDeclaration.data := by decide

theorem atStrip_decl : atStrip docDeclaration.data = docDeclaration.data := by decide

/-- C7 amended: `toString` output is the declaration followed by the fixups
applied to the serialized body, where the fixups remove attribute remnants,
turn `&amp;` into `+`, replace every apostrophe by a space (rather than
stripping it) and strip every `@`; consequently the output starts with the
XML declaration and contains no apostrophe and no `@`. -/
theorem claim7_amended_toString (body : String) :
    sepaDocumentToString body = ⟨ docDeclaration.data ++ sepaPostProcess body.data ⟩ ∧
    (sepaDocumentToString body).data.count aposChar = 0 ∧
    (sepaDocumentToString body).data.count '@' = 0 := by
  have hlen : (docDeclaration.data ++ body.data).length =
      docDeclaration.data.length + body.data.length := List.length_append _ _
  have hscan : attrScanGo (docDeclaration.data ++ body.data).length
      (docDeclaration.data ++ body.data) =
      docDeclaration.data ++ attrScanGo body.data.length body.data := by
    rw [hlen]
    exact attrScanGo_append docDeclaration.data docDeclaration_tails_safe body.data
  have hmain : sepaDocumentToString body =
      ⟨ docDeclaration.data ++ sepaPostProcess body.data ⟩ := by
    unfold sepaDocumentToString sepaPostProcess
    rw [hscan, ampReplace_append docDeclaration_no_amp]
    unfold aposReplace atStrip
    rw [List.map_append, List.filter_append]
    rw [show List.map (fun c => if c = aposChar then ' ' else c) docDeclaration.data =
      aposReplace docDeclaration.data from rfl, aposReplace_decl]
    rw [show List.filter (fun c => decide (c ≠ '@')) docDeclaration.data =
      atStrip docDeclaration.data from rfl, atStrip_decl]
  refine ⟨ hmain, ?_, ?_ ⟩
  · rw [List.count_eq_zero]
    intro hmem
    have : aposChar ∈ aposReplace (ampReplace (attrScanGo
        (docDeclaration.data ++ body.data).length (docDeclaration.data ++ body.data))) :=
      mem_of_mem_atStrip hmem
    exact aposChar_not_mem_aposReplace _ this
  · rw [List.count_eq_zero]
    exact at_not_mem_atStrip _

/-- C7 counterexample: an apostrophe in element text is replaced by a space,
not stripped; `claimDocumentToString` is the claim's version (apostrophes
removed) and the two disagree. -/
theorem claim7_counterexample :
    sepaDocumentToString bodyApos ≠ claimDocumentToString bodyApos ∧
    sepaDocumentToString bodyApos = ⟨ docDeclaration.data ++ ( "<Nm>D OH</Nm>" ).data ⟩ ∧
    claimDocumentToString bodyApos = ⟨ docDeclaration.data ++ ( "<Nm>DOH</Nm>" ).data ⟩ := by
  decide

theorem lastAssert_false (n : Nat) :
    assertLengthThrows (JSVal.jnum ((n : Nat) : Rat)) (JSVal.jnum 1) JSVal.jnull = false := by
  simp [assertLengthThrows, jsLengthProp, jsLtB]

/-- C5: the code does not reject an empty transaction list.  The example
direct-debit block with zero transactions validates cleanly; the
`assert_length(this.payments.length, 1, null)` guard can never throw, for
any payment-info block, because a JS number has no `.length` (and `0` is
falsy), so the `_payments` error is unreachable. -/
theorem claim5_empty_payments_not_rejected :
    validatePmtInf emptyPmtInf = none ∧
    (∀ n : Nat, assertLengthThrows (JSVal.jnum ((n : Nat) : Rat))
      (JSVal.jnum 1) JSVal.jnull = false) ∧
    (∀ p : SepaPaymentInfo, validatePmtInf { p with payments := [] } = validatePmtInf p) := by
  refine ⟨ by decide, lastAssert_false, ?_ ⟩
  intro p
  show firstSome _ _ = firstSome _ _
  simp only [validatePmtInf, lastAssert_false, chk]

theorem foldl_add_eq_sum_map {α : Type} (f : α → Rat) (l : List α) :
    l.foldl (fun acc x => acc + f x) 0 = (l.map f).sum := by
  rw [List.sum_eq_foldl, List.foldl_map]

/-- C8. Normalization recomputes the group-header aggregates from the owned
blocks: the control sum is the sum over blocks of the sums of their
transaction amounts, the transaction count is the total number of
transactions, and whatever the caller stored in those two fields has no
effect on the normalized document. -/
theorem claim8_normalize_invariant :
    (∀ d : SepaDocument,
      (d.normalize).grpHdr.controlSum =
        (d.paymentInfo.map (fun p => (p.payments.map SepaTransaction.amount).sum)).sum ∧
      (d.normalize).grpHdr.transactionCount =
        (((d.paymentInfo.map (fun p => p.payments.length)).sum : Nat) : Rat)) ∧
    (∀ (d : SepaDocument) (cs tc : Rat),
      SepaDocument.normalize
        { d with grpHdr := { d.grpHdr with controlSum := cs, transactionCount := tc } } =
        d.normalize) := by
  constructor
  · intro d
    obtain ⟨ gh, pis ⟩ := d
    constructor
    · show (pis.map SepaPaymentInfo.normalize).foldl (fun acc p => acc + p.controlSum) 0 =
        (pis.map (fun p => (p.payments.map SepaTransaction.amount).sum)).sum
      rw [foldl_add_eq_sum_map, List.map_map]
      congr 1
      refine List.map_congr_left ?_
      intro p _
      show p.payments.foldl (fun controlSum t => controlSum + t.amount) 0 = _
      rw [foldl_add_eq_sum_map]
    · show (pis.map SepaPaymentInfo.normalize).foldl
          (fun acc p => acc + ((p.transactionCount : Nat) : Rat)) 0 =
        (((pis.map (fun p => p.payments.length)).sum : Nat) : Rat)
      rw [foldl_add_eq_sum_map, List.map_map, Nat.cast_list_sum, List.map_map]
      congr 1
  · intro d cs tc
    obtain ⟨ ⟨ hid, htc, hcs ⟩, pis ⟩ := d
    rfl

example : modulo97 "2" = some 2 := by decide
example : modulo97 "88512108001245126199" = some 49 := by decide
example : validateIBAN "DE75512108001245126199" = true := by decide
example : validateIBAN "DE54500105171488962235" = false := by decide
example : checksumIBAN "DE88512108001245126199" = "DE75512108001245126199" := by decide
example : checksumIBAN "DE00123456781234567890" = "DE87123456781234567890" := by decide
example : validateCreditorID "DE98ZZZ09999999999" = true := by decide
example : replaceChars "It" = "1829" := by decide
